import Mathlib

/-
  Verification of the analytics core of `panel.py` (china-copper-dashboard).

  Shallow embedding conventions:
  * IEEE-754 float values that the program treats as ordinary finite numbers
    are modelled as exact rationals (`ℚ`).
  * `NaN` ("dato no disponible" / unavailable) is modelled as `Option.none`;
    an available value `x` is `some x`.  The source only produces NaN through
    missing market data, `np.nan` assignments and 0/0-style operations, each
    of which is translated explicitly below.
  * Square roots (pandas `.std()`, `np.sqrt`) force the projection part of
    the development into `ℝ` via `Real.sqrt`; everything else stays in `ℚ`.
-/

/-- The nine-tuple returned by `calculate_order` (panel.py lines 159-173).
Each component may be NaN, hence `Option ℚ`. -/
structure OrderResult where
  budget_cny : Option ℚ
  copper_budget_cny : Option ℚ
  other_budget_cny : Option ℚ
  copper_quantity_lb : Option ℚ
  copper_quantity_ton : Option ℚ
  transport_cost_cny : Option ℚ
  other_cost_cny : Option ℚ
  total_order_cost_cny : Option ℚ
  budget_status : Option ℚ

/-- The all-NaN tuple returned when any input price is NaN. -/
def nanOrder : OrderResult := ⟨none, none, none, none, none, none, none, none, none⟩

/-- The pound-to-metric-ton conversion constant `0.000453592` of the source. -/
def lbToTon : ℚ := 453592 / 1000000000

/-- Embedding of `calculate_order` (panel.py lines 159-173).

The source guards with `any(np.isnan(...))` over the four prices and returns
nine NaNs.  Otherwise everything is plain arithmetic except:
`copper_quantity_lb` is NaN when `copper_price_cny == 0` (the `if ... != 0`
guard), `copper_quantity_ton` is NaN exactly when the lb quantity is, and
`other_cost_cny` is clipped at zero via the `if other >= transport` branch.
Because the four prices are non-NaN in the main branch, `oil_price_cny` is
never NaN there, so `transport_cost_cny` always takes its computed value. -/
def calculate_order (budget_eur copper_pct transport_factor : ℚ)
    (copper_price oil_price eur_cny_price usd_cny_price : Option ℚ) : OrderResult :=
  match copper_price, oil_price, eur_cny_price, usd_cny_price with
  | some cp, some op, some ec, some uc =>
      let budget_cny := budget_eur * ec
      let copper_budget_cny := budget_cny * (copper_pct / 100)
      let other_budget_cny := budget_cny * (1 - copper_pct / 100)
      let copper_price_cny := cp * uc
      let oil_price_cny := op * uc
      let copper_quantity_lb : Option ℚ :=
        if copper_price_cny ≠ 0 then some (copper_budget_cny / copper_price_cny) else none
      let copper_quantity_ton : Option ℚ := copper_quantity_lb.map (fun q => q * lbToTon)
      let transport_cost_cny := oil_price_cny * transport_factor / 100
      let other_cost_cny :=
        if other_budget_cny ≥ transport_cost_cny then other_budget_cny - transport_cost_cny else 0
      let total_order_cost_cny := copper_budget_cny + transport_cost_cny + other_cost_cny
      let budget_status := budget_cny - total_order_cost_cny
      ⟨some budget_cny, some copper_budget_cny, some other_budget_cny,
       copper_quantity_lb, copper_quantity_ton,
       some transport_cost_cny, some other_cost_cny,
       some total_order_cost_cny, some budget_status⟩
  | _, _, _, _ => nanOrder

/-- Claim C1, counterexample: with all four prices available but a zero copper
price, `calculate_order` still computes the budget fields while the quantity
field is NaN — the result is neither fully unavailable nor fully computed,
refuting the all-or-nothing statement for the division-by-zero case. -/
theorem C1_counterexample :
    (calculate_order 100000 50 1 (some 0) (some 80) (some (39/5)) (some (36/5))).budget_cny
      = some 780000 ∧
    (calculate_order 100000 50 1 (some 0) (some 80) (some (39/5)) (some (36/5))).copper_quantity_lb
      = none := by
  constructor <;> (simp only [calculate_order]; norm_num)

/-- Claim C1 (amended): if any of the four prices is unavailable the whole
result is the all-NaN tuple; if all four are available but
`copper_price * usd_cny_price = 0` then exactly the two quantity fields are
unavailable and the remaining seven fields are computed; with a nonzero
product every field of the result is computed. -/
theorem C1_all_or_nothing (b p f : ℚ) (cp op ec uc : Option ℚ) :
    ((cp = none ∨ op = none ∨ ec = none ∨ uc = none) →
      calculate_order b p f cp op ec uc = nanOrder) ∧
    (∀ c o e u : ℚ, cp = some c → op = some o → ec = some e → uc = some u →
      ((c * u = 0 →
         (calculate_order b p f cp op ec uc).copper_quantity_lb = none ∧
         (calculate_order b p f cp op ec uc).copper_quantity_ton = none ∧
         (calculate_order b p f cp op ec uc).budget_cny.isSome = true ∧
         (calculate_order b p f cp op ec uc).copper_budget_cny.isSome = true ∧
         (calculate_order b p f cp op ec uc).other_budget_cny.isSome = true ∧
         (calculate_order b p f cp op ec uc).transport_cost_cny.isSome = true ∧
         (calculate_order b p f cp op ec uc).other_cost_cny.isSome = true ∧
         (calculate_order b p f cp op ec uc).total_order_cost_cny.isSome = true ∧
         (calculate_order b p f cp op ec uc).budget_status.isSome = true) ∧
       (c * u ≠ 0 →
         (calculate_order b p f cp op ec uc).budget_cny.isSome = true ∧
         (calculate_order b p f cp op ec uc).copper_budget_cny.isSome = true ∧
         (calculate_order b p f cp op ec uc).other_budget_cny.isSome = true ∧
         (calculate_order b p f cp op ec uc).copper_quantity_lb.isSome = true ∧
         (calculate_order b p f cp op ec uc).copper_quantity_ton.isSome = true ∧
         (calculate_order b p f cp op ec uc).transport_cost_cny.isSome = true ∧
         (calculate_order b p f cp op ec uc).other_cost_cny.isSome = true ∧
         (calculate_order b p f cp op ec uc).total_order_cost_cny.isSome = true ∧
         (calculate_order b p f cp op ec uc).budget_status.isSome = true))) := by
  constructor
  · intro hnone
    cases cp <;> cases op <;> cases ec <;> cases uc <;> simp_all [calculate_order]
  · rintro c o e u rfl rfl rfl rfl
    refine ⟨fun hz => ?_, fun hz => ?_⟩ <;> simp [calculate_order, hz]

/-- Claim C1, witness instance: an unavailable copper price makes the whole
result the NaN tuple. -/
theorem C1_all_or_nothing_witness :
    calculate_order 1 50 1 none (some 1) (some 1) (some 1) = nanOrder :=
  (C1_all_or_nothing 1 50 1 none (some 1) (some 1) (some 1)).1 (Or.inl rfl)

/-- Claim C2: with the four prices available and a nonzero
`copper_price * usd_cny_price`, the computed fields satisfy the exact budget
identities: copper budget + other budget = total budget, total cost =
copper budget + transport cost + other cost, and the surplus/deficit is the
budget minus the total cost. -/
theorem C2_budget_identities (b p f cp op ec uc : ℚ) (h : cp * uc ≠ 0) :
    (∃ B CB OB,
      (calculate_order b p f (some cp) (some op) (some ec) (some uc)).budget_cny = some B ∧
      (calculate_order b p f (some cp) (some op) (some ec) (some uc)).copper_budget_cny = some CB ∧
      (calculate_order b p f (some cp) (some op) (some ec) (some uc)).other_budget_cny = some OB ∧
      CB + OB = B) ∧
    (∃ CB TC OC T,
      (calculate_order b p f (some cp) (some op) (some ec) (some uc)).copper_budget_cny = some CB ∧
      (calculate_order b p f (some cp) (some op) (some ec) (some uc)).transport_cost_cny = some TC ∧
      (calculate_order b p f (some cp) (some op) (some ec) (some uc)).other_cost_cny = some OC ∧
      (calculate_order b p f (some cp) (some op) (some ec) (some uc)).total_order_cost_cny = some T ∧
      T = CB + TC + OC) ∧
    (∃ B T S,
      (calculate_order b p f (some cp) (some op) (some ec) (some uc)).budget_cny = some B ∧
      (calculate_order b p f (some cp) (some op) (some ec) (some uc)).total_order_cost_cny = some T ∧
      (calculate_order b p f (some cp) (some op) (some ec) (some uc)).budget_status = some S ∧
      S = B - T) := by
  refine ⟨⟨b * ec, b * ec * (p / 100), b * ec * (1 - p / 100), rfl, rfl, rfl, by ring⟩,
         ⟨b * ec * (p / 100), op * uc * f / 100,
          if b * ec * (1 - p / 100) ≥ op * uc * f / 100
            then b * ec * (1 - p / 100) - op * uc * f / 100 else 0, _,
          rfl, rfl, rfl, rfl, rfl⟩,
         ⟨b * ec, _, _, rfl, rfl, rfl, rfl⟩⟩

/-- Claim C2, witness instance at the spec's end-to-end numbers
(budget 100000 EUR, 50 percent copper, 1 percent transport factor, copper
4.50 USD/lb, oil 80 USD/barrel, EUR/CNY 7.8, USD/CNY 7.2). -/
theorem C2_budget_identities_witness :
    ∃ B CB OB,
      (calculate_order 100000 50 1 (some (9/2)) (some 80) (some (39/5))
        (some (36/5))).budget_cny = some B ∧
      (calculate_order 100000 50 1 (some (9/2)) (some 80) (some (39/5))
        (some (36/5))).copper_budget_cny = some CB ∧
      (calculate_order 100000 50 1 (some (9/2)) (some 80) (some (39/5))
        (some (36/5))).other_budget_cny = some OB ∧
      CB + OB = B :=
  (C2_budget_identities 100000 50 1 (9/2) 80 (39/5) (36/5) (by norm_num)).1

/-- Claim C5, counterexample: a negative (but available) copper price yields a
negative computed copper quantity, so non-negativity fails when prices range
over arbitrary available float values. -/
theorem C5_counterexample :
    (calculate_order 100000 50 1 (some (-1)) (some 80) (some 1)
      (some 1)).copper_quantity_lb = some (-50000) ∧ ((-50000 : ℚ) < 0) := by
  constructor
  · simp only [calculate_order]
    norm_num
  · norm_num

/-- Claim C5 (amended): with positive budget, percentages in [0,100] and
non-negative available prices, every quantity and every cost field of the
result that is computed is non-negative. -/
theorem C5_nonneg (b p f cp op ec uc : ℚ) (hb : 0 < b)
    (hp0 : 0 ≤ p) (hp1 : p ≤ 100) (hf0 : 0 ≤ f) (hf1 : f ≤ 100)
    (hcp : 0 ≤ cp) (hop : 0 ≤ op) (hec : 0 ≤ ec) (huc : 0 ≤ uc) :
    (∀ q, (calculate_order b p f (some cp) (some op) (some ec)
        (some uc)).copper_quantity_lb = some q → 0 ≤ q) ∧
    (∀ q, (calculate_order b p f (some cp) (some op) (some ec)
        (some uc)).copper_quantity_ton = some q → 0 ≤ q) ∧
    (∀ q, (calculate_order b p f (some cp) (some op) (some ec)
        (some uc)).transport_cost_cny = some q → 0 ≤ q) ∧
    (∀ q, (calculate_order b p f (some cp) (some op) (some ec)
        (some uc)).other_cost_cny = some q → 0 ≤ q) ∧
    (∀ q, (calculate_order b p f (some cp) (some op) (some ec)
        (some uc)).total_order_cost_cny = some q → 0 ≤ q) := by
  have hCB : 0 ≤ b * ec * (p / 100) := by positivity
  have hTC : 0 ≤ op * uc * f / 100 := by positivity
  have hlb : ∀ q, (calculate_order b p f (some cp) (some op) (some ec)
      (some uc)).copper_quantity_lb = some q → 0 ≤ q := by
    intro q hq
    by_cases hz : cp * uc = 0
    · simp [calculate_order, hz] at hq
    · simp only [calculate_order, ne_eq, hz, not_false_eq_true, if_true] at hq
      have hpos : 0 < cp * uc := lt_of_le_of_ne (mul_nonneg hcp huc) (Ne.symm hz)
      rw [Option.some.injEq] at hq
      rw [← hq]
      exact div_nonneg hCB (le_of_lt hpos)
  refine ⟨hlb, ?_, ?_, ?_, ?_⟩
  · intro q hq
    by_cases hz : cp * uc = 0
    · simp [calculate_order, hz] at hq
    · simp only [calculate_order, ne_eq, hz, not_false_eq_true, if_true,
        Option.map_some'] at hq
      rw [Option.some.injEq] at hq
      have h1 : 0 ≤ b * ec * (p / 100) / (cp * uc) := by
        have hpos : 0 < cp * uc := lt_of_le_of_ne (mul_nonneg hcp huc) (Ne.symm hz)
        exact div_nonneg hCB (le_of_lt hpos)
      rw [← hq]
      have h2 : (0:ℚ) ≤ lbToTon := by norm_num [lbToTon]
      exact mul_nonneg h1 h2
  · intro q hq
    simp only [calculate_order, Option.some.injEq] at hq
    rw [← hq]; exact hTC
  · intro q hq
    simp only [calculate_order, Option.some.injEq] at hq
    rw [← hq]
    by_cases hge : b * ec * (1 - p / 100) ≥ op * uc * f / 100
    · rw [if_pos hge]; linarith
    · rw [if_neg hge]
  · intro q hq
    simp only [calculate_order, Option.some.injEq] at hq
    rw [← hq]
    have hOC : (0:ℚ) ≤
        if b * ec * (1 - p / 100) ≥ op * uc * f / 100
          then b * ec * (1 - p / 100) - op * uc * f / 100 else 0 := by
      by_cases hge : b * ec * (1 - p / 100) ≥ op * uc * f / 100
      · rw [if_pos hge]; linarith
      · rw [if_neg hge]
    linarith

/-- Claim C5, witness instance: at the spec's end-to-end inputs every computed
quantity and cost field is non-negative. -/
theorem C5_nonneg_witness :
    (0:ℚ) ≤ 100000 * (39/5) * (50/100) / ((9/2) * (36/5)) :=
  (C5_nonneg 100000 50 1 (9/2) 80 (39/5) (36/5) (by norm_num) (by norm_num)
    (by norm_num) (by norm_num) (by norm_num) (by norm_num) (by norm_num)
    (by norm_num) (by norm_num)).1
    (100000 * (39/5) * (50/100) / ((9/2) * (36/5)))
    (by simp only [calculate_order]; norm_num)

/-- Claim C10: with the four prices available and a nonzero copper price in
CNY, the surplus/deficit equals `min (other_budget - transport_cost) 0`, hence
is never strictly positive. -/
theorem C10_surplus_min (b p f cp op ec uc : ℚ) (h : cp * uc ≠ 0) :
    ∃ OB TC S,
      (calculate_order b p f (some cp) (some op) (some ec)
        (some uc)).other_budget_cny = some OB ∧
      (calculate_order b p f (some cp) (some op) (some ec)
        (some uc)).transport_cost_cny = some TC ∧
      (calculate_order b p f (some cp) (some op) (some ec)
        (some uc)).budget_status = some S ∧
      S = min (OB - TC) 0 ∧ S ≤ 0 := by
  refine ⟨b * ec * (1 - p / 100), op * uc * f / 100, _, rfl, rfl, rfl, ?_, ?_⟩
  · by_cases hge : b * ec * (1 - p / 100) ≥ op * uc * f / 100
    · rw [if_pos hge, min_eq_right (by linarith)]
      ring
    · rw [if_neg hge, min_eq_left (by linarith)]
      ring
  · by_cases hge : b * ec * (1 - p / 100) ≥ op * uc * f / 100
    · rw [if_pos hge]; ring_nf; linarith
    · rw [if_neg hge]; ring_nf; linarith

/-- Claim C10, witness instance. -/
theorem C10_surplus_min_witness :
    ∃ OB TC S,
      (calculate_order 100000 50 1 (some (9/2)) (some 80) (some (39/5))
        (some (36/5))).other_budget_cny = some OB ∧
      (calculate_order 100000 50 1 (some (9/2)) (some 80) (some (39/5))
        (some (36/5))).transport_cost_cny = some TC ∧
      (calculate_order 100000 50 1 (some (9/2)) (some 80) (some (39/5))
        (some (36/5))).budget_status = some S ∧
      S = min (OB - TC) 0 ∧ S ≤ 0 :=
  C10_surplus_min 100000 50 1 (9/2) 80 (39/5) (36/5) (by norm_num)

/-- The six perturbation scenarios of the sensitivity analysis
(panel.py lines 659-673, the `variations` dict). -/
inductive Scenario where
  | cobreUp
  | cobreDown
  | petroleoUp
  | petroleoDown
  | eurUp
  | eurDown

/-- The label of each scenario, exactly the keys of the `variations` dict. -/
def scenarioLabel : Scenario → String := fun s =>
  match s with
  | .cobreUp => "Cobre +5%"
  | .cobreDown => "Cobre -5%"
  | .petroleoUp => "Petróleo +5%"
  | .petroleoDown => "Petróleo -5%"
  | .eurUp => "EUR/CNY +5%"
  | .eurDown => "EUR/CNY -5%"

/-- The perturbed input 4-tuple of each scenario: exactly one of the copper
price, the oil price or the EUR/CNY rate is scaled by 1.05 (= 21/20) or
0.95 (= 19/20); the USD/CNY rate is never perturbed (panel.py lines 660-667). -/
def scenarioInputs (cp op ec uc : ℚ) : Scenario → ℚ × ℚ × ℚ × ℚ := fun s =>
  match s with
  | .cobreUp => (cp * (21/20), op, ec, uc)
  | .cobreDown => (cp * (19/20), op, ec, uc)
  | .petroleoUp => (cp, op * (21/20), ec, uc)
  | .petroleoDown => (cp, op * (19/20), ec, uc)
  | .eurUp => (cp, op, ec * (21/20), uc)
  | .eurDown => (cp, op, ec * (19/20), uc)

/-- The copper tonnage recorded for one sensitivity scenario
(panel.py lines 669-673: the 5th component of `calculate_order`). -/
def scenarioQtyTon (b p f cp op ec uc : ℚ) (s : Scenario) : Option ℚ :=
  let v := scenarioInputs cp op ec uc s
  (calculate_order b p f (some v.1) (some v.2.1) (some v.2.2.1)
    (some v.2.2.2)).copper_quantity_ton

/-- The unperturbed baseline copper tonnage (panel.py lines 352-354). -/
def baselineQtyTon (b p f cp op ec uc : ℚ) : Option ℚ :=
  (calculate_order b p f (some cp) (some op) (some ec)
    (some uc)).copper_quantity_ton

/-- The sensitivity table: label / copper tonnage rows in the order of the
`variations` dict (panel.py lines 660-674). -/
def sensitivity_results (b p f cp op ec uc : ℚ) : List (String × Option ℚ) :=
  [Scenario.cobreUp, Scenario.cobreDown, Scenario.petroleoUp,
   Scenario.petroleoDown, Scenario.eurUp, Scenario.eurDown].map
    (fun s => (scenarioLabel s, scenarioQtyTon b p f cp op ec uc s))

/-- Claim C9: the copper quantity computed by `calculate_order` does not
depend on the oil price: two available input tuples differing only in the oil
price give identical lb and ton quantities, and consequently the two oil
sensitivity scenarios record exactly the baseline tonnage. -/
theorem C9_oil_independence :
    (∀ b p f cp ec uc o o' : ℚ,
      (calculate_order b p f (some cp) (some o) (some ec)
        (some uc)).copper_quantity_lb =
      (calculate_order b p f (some cp) (some o') (some ec)
        (some uc)).copper_quantity_lb ∧
      (calculate_order b p f (some cp) (some o) (some ec)
        (some uc)).copper_quantity_ton =
      (calculate_order b p f (some cp) (some o') (some ec)
        (some uc)).copper_quantity_ton) ∧
    (∀ b p f cp op ec uc : ℚ,
      scenarioQtyTon b p f cp op ec uc Scenario.petroleoUp =
        baselineQtyTon b p f cp op ec uc ∧
      scenarioQtyTon b p f cp op ec uc Scenario.petroleoDown =
        baselineQtyTon b p f cp op ec uc) :=
  ⟨fun _ _ _ _ _ _ _ _ => ⟨rfl, rfl⟩, fun _ _ _ _ _ _ _ => ⟨rfl, rfl⟩⟩

/-- Claim C8, counterexample: with a zero copper share percentage (positive
budget, positive prices), the "Cobre +5%" scenario records exactly the
baseline tonnage (both are 0), so the strict decrease fails. -/
theorem C8_counterexample :
    scenarioQtyTon 100000 0 1 (9/2) 80 (39/5) (36/5) Scenario.cobreUp =
      baselineQtyTon 100000 0 1 (9/2) 80 (39/5) (36/5) ∧
    baselineQtyTon 100000 0 1 (9/2) 80 (39/5) (36/5) = some 0 := by
  constructor
  · simp only [scenarioQtyTon, baselineQtyTon, scenarioInputs, calculate_order]
    norm_num
  · simp only [baselineQtyTon, calculate_order]
    norm_num

/-- Claim C8 (amended): with positive budget, a positive copper share
percentage and positive prices, the "Cobre +5%" scenario records a strictly
smaller copper tonnage than the baseline and "Cobre -5%" a strictly larger
one. -/
theorem C8_copper_sensitivity (b p f cp op ec uc : ℚ) (hb : 0 < b) (hp : 0 < p)
    (hcp : 0 < cp) (hop : 0 < op) (hec : 0 < ec) (huc : 0 < uc) :
    ∃ q0 qU qD,
      baselineQtyTon b p f cp op ec uc = some q0 ∧
      scenarioQtyTon b p f cp op ec uc Scenario.cobreUp = some qU ∧
      scenarioQtyTon b p f cp op ec uc Scenario.cobreDown = some qD ∧
      qU < q0 ∧ q0 < qD := by
  have hx : 0 < cp * uc := mul_pos hcp huc
  have hxU : 0 < cp * (21/20) * uc := by positivity
  have hxD : 0 < cp * (19/20) * uc := by positivity
  have hCB : 0 < b * ec * (p / 100) := by positivity
  have hk : (0:ℚ) < lbToTon := by norm_num [lbToTon]
  refine ⟨b * ec * (p / 100) / (cp * uc) * lbToTon,
          b * ec * (p / 100) / (cp * (21/20) * uc) * lbToTon,
          b * ec * (p / 100) / (cp * (19/20) * uc) * lbToTon, ?_, ?_, ?_, ?_, ?_⟩
  · simp only [baselineQtyTon, calculate_order, ne_eq, ne_of_gt hx,
      not_false_eq_true, if_true, Option.map_some']
  · simp only [scenarioQtyTon, scenarioInputs, calculate_order, ne_eq,
      ne_of_gt hxU, not_false_eq_true, if_true, Option.map_some']
  · simp only [scenarioQtyTon, scenarioInputs, calculate_order, ne_eq,
      ne_of_gt hxD, not_false_eq_true, if_true, Option.map_some']
  · have h1 : cp * uc < cp * (21/20) * uc := by nlinarith
    have h2 : b * ec * (p / 100) / (cp * (21/20) * uc)
        < b * ec * (p / 100) / (cp * uc) :=
      div_lt_div_of_pos_left hCB hx h1
    exact mul_lt_mul_of_pos_right h2 hk
  · have h1 : cp * (19/20) * uc < cp * uc := by nlinarith
    have h2 : b * ec * (p / 100) / (cp * uc)
        < b * ec * (p / 100) / (cp * (19/20) * uc) :=
      div_lt_div_of_pos_left hCB hxD h1
    exact mul_lt_mul_of_pos_right h2 hk

/-- Claim C8, witness instance at the spec's end-to-end numbers. -/
theorem C8_copper_sensitivity_witness :
    ∃ q0 qU qD,
      baselineQtyTon 100000 50 1 (9/2) 80 (39/5) (36/5) = some q0 ∧
      scenarioQtyTon 100000 50 1 (9/2) 80 (39/5) (36/5) Scenario.cobreUp = some qU ∧
      scenarioQtyTon 100000 50 1 (9/2) 80 (39/5) (36/5) Scenario.cobreDown = some qD ∧
      qU < q0 ∧ q0 < qD :=
  C8_copper_sensitivity 100000 50 1 (9/2) 80 (39/5) (36/5) (by norm_num)
    (by norm_num) (by norm_num) (by norm_num) (by norm_num) (by norm_num)

/-- The three 4-month projection calls of `calculate_order`
(panel.py lines 531-539): the expected scenario uses the expected
(`*_future`) values; the minimum-quantity scenario pairs the maximum copper
and oil prices with the minimum EUR/CNY and maximum USD/CNY rates; the
maximum-quantity scenario pairs the minimum copper and oil prices with the
maximum EUR/CNY and minimum USD/CNY rates.  Components: (expected tonnage,
minimum-scenario tonnage, maximum-scenario tonnage). -/
def projection_scenarios (b p f : ℚ)
    (cF cN cX oF oN oX eF eN eX uF uN uX : ℚ) : Option ℚ × Option ℚ × Option ℚ :=
  ((calculate_order b p f (some cF) (some oF) (some eF)
      (some uF)).copper_quantity_ton,
   (calculate_order b p f (some cX) (some oX) (some eN)
      (some uX)).copper_quantity_ton,
   (calculate_order b p f (some cN) (some oN) (some eX)
      (some uN)).copper_quantity_ton)

/-- Claim C3: the projection calls `calculate_order` three times with the
bound pairing of panel.py lines 531-539 (encoded in
`projection_scenarios`), and whenever each relevant instrument's
lower/expected/upper values are positive and ordered (the situation the claim
presupposes for positive slopes), the recorded tonnages satisfy
minimum scenario ≤ expected scenario ≤ maximum scenario. -/
theorem C3_projection_ordering (b p f : ℚ)
    (cF cN cX oF oN oX eF eN eX uF uN uX : ℚ)
    (hb : 0 ≤ b) (hp : 0 ≤ p)
    (hc0 : 0 < cN) (hc1 : cN ≤ cF) (hc2 : cF ≤ cX)
    (he0 : 0 < eN) (he1 : eN ≤ eF) (he2 : eF ≤ eX)
    (hu0 : 0 < uN) (hu1 : uN ≤ uF) (hu2 : uF ≤ uX) :
    ∃ qF qN qX,
      (projection_scenarios b p f cF cN cX oF oN oX eF eN eX uF uN uX).1 = some qF ∧
      (projection_scenarios b p f cF cN cX oF oN oX eF eN eX uF uN uX).2.1 = some qN ∧
      (projection_scenarios b p f cF cN cX oF oN oX eF eN eX uF uN uX).2.2 = some qX ∧
      qN ≤ qF ∧ qF ≤ qX := by
  have hcF : 0 < cF := lt_of_lt_of_le hc0 hc1
  have hcX : 0 < cX := lt_of_lt_of_le hcF hc2
  have heF : 0 < eF := lt_of_lt_of_le he0 he1
  have heX : 0 < eX := lt_of_lt_of_le heF he2
  have huF : 0 < uF := lt_of_lt_of_le hu0 hu1
  have huX : 0 < uX := lt_of_lt_of_le huF hu2
  have hdF : 0 < cF * uF := mul_pos hcF huF
  have hdN : 0 < cN * uN := mul_pos hc0 hu0
  have hdX : 0 < cX * uX := mul_pos hcX huX
  have hk : (0:ℚ) ≤ lbToTon := by norm_num [lbToTon]
  have hbp : 0 ≤ b * (p / 100) := by positivity
  refine ⟨b * eF * (p / 100) / (cF * uF) * lbToTon,
          b * eN * (p / 100) / (cX * uX) * lbToTon,
          b * eX * (p / 100) / (cN * uN) * lbToTon, ?_, ?_, ?_, ?_, ?_⟩
  · simp only [projection_scenarios, calculate_order, ne_eq, ne_of_gt hdF,
      not_false_eq_true, if_true, Option.map_some']
  · simp only [projection_scenarios, calculate_order, ne_eq, ne_of_gt hdX,
      not_false_eq_true, if_true, Option.map_some']
  · simp only [projection_scenarios, calculate_order, ne_eq, ne_of_gt hdN,
      not_false_eq_true, if_true, Option.map_some']
  · have hnum : b * eN * (p / 100) ≤ b * eF * (p / 100) := by nlinarith
    have hden : cF * uF ≤ cX * uX := by nlinarith
    have h1 : b * eN * (p / 100) / (cX * uX) ≤ b * eF * (p / 100) / (cF * uF) :=
      div_le_div (by positivity) hnum hdF hden
    exact mul_le_mul_of_nonneg_right h1 hk
  · have hnum : b * eF * (p / 100) ≤ b * eX * (p / 100) := by nlinarith
    have hden : cN * uN ≤ cF * uF := by nlinarith
    have h1 : b * eF * (p / 100) / (cF * uF) ≤ b * eX * (p / 100) / (cN * uN) :=
      div_le_div (by positivity) hnum hdN hden
    exact mul_le_mul_of_nonneg_right h1 hk

/-- Claim C3, witness instance: concrete ordered positive bound triples. -/
theorem C3_projection_ordering_witness :
    ∃ qF qN qX,
      (projection_scenarios 100000 50 1 (9/2) 4 5 80 75 85 (39/5) 7 8
        (36/5) 7 (15/2)).1 = some qF ∧
      (projection_scenarios 100000 50 1 (9/2) 4 5 80 75 85 (39/5) 7 8
        (36/5) 7 (15/2)).2.1 = some qN ∧
      (projection_scenarios 100000 50 1 (9/2) 4 5 80 75 85 (39/5) 7 8
        (36/5) 7 (15/2)).2.2 = some qX ∧
      qN ≤ qF ∧ qF ≤ qX :=
  C3_projection_ordering 100000 50 1 (9/2) 4 5 80 75 85 (39/5) 7 8 (36/5) 7 (15/2)
    (by norm_num) (by norm_num) (by norm_num) (by norm_num) (by norm_num)
    (by norm_num) (by norm_num) (by norm_num) (by norm_num) (by norm_num)
    (by norm_num)

/-- Numerator of the last value of the pandas `ewm(adjust=True)` weighted
mean: processing the list left to right, every earlier term is decayed by
`r = 1 - alpha`.  After the fold the accumulator is
`sum over i of r^(n-1-i) * x i`. -/
def ewmNum (r : ℚ) (xs : List ℚ) : ℚ :=
  xs.foldl (fun a x => a * r + x) 0

/-- Denominator of the last value of the pandas `ewm(adjust=True)` weighted
mean: `sum over i of r^(n-1-i)`. -/
def ewmDen (r : ℚ) (xs : List ℚ) : ℚ :=
  xs.foldl (fun a _ => a * r + 1) 0

/-- The last entry of `series.ewm(alpha, adjust=True, min_periods=...).mean()`
over a NaN-free series: the weighted average with decay `r = 1 - alpha`. -/
def ewmMeanLast (r : ℚ) (xs : List ℚ) : ℚ :=
  ewmNum r xs / ewmDen r xs

/-- Successive differences `close.diff()` of a series, without the leading
NaN entry (the pandas `ewm` skips that NaN; its weights match folding over
exactly this list). -/
def diffs (close : List ℚ) : List ℚ :=
  (close.zip close.tail).map (fun q => q.2 - q.1)

/-- Smoothed average gain of `calculate_rsi`: `delta.clip(lower=0)` fed to
`ewm(alpha=1/period, min_periods=period).mean()`, last entry. -/
def rsiAvgGain (close : List ℚ) (period : ℕ) : ℚ :=
  ewmMeanLast (1 - 1 / (period : ℚ)) ((diffs close).map (fun d => max d 0))

/-- Smoothed average loss of `calculate_rsi`: `-delta.clip(upper=0)` fed to
`ewm(alpha=1/period, min_periods=period).mean()`, last entry. -/
def rsiAvgLoss (close : List ℚ) (period : ℕ) : ℚ :=
  ewmMeanLast (1 - 1 / (period : ℚ)) ((diffs close).map (fun d => max (-d) 0))

/-- Embedding of `calculate_rsi` (panel.py lines 212-223) over the close values of a
series with no missing entries.

The source computes `rs = avg_gain / avg_loss` and
`rsi = 100 - 100/(1+rs)` in IEEE arithmetic and returns `rsi.iloc[-1]`;
with at least `period+1` rows the `min_periods` mask leaves the last entry
defined.  When `avg_loss = 0` the float quotient is `±inf` (giving
`rsi = 100`) unless `avg_gain = 0` too, in which case `rs = 0/0 = NaN` and
the result is NaN.  Those IEEE special cases are spelled out as the two
nested conditionals below; all remaining arithmetic is exact. -/
def calculate_rsi (close : List ℚ) (period : ℕ) : Option ℚ :=
  if close.length < period + 1 then none
  else if rsiAvgLoss close period = 0 then
    (if rsiAvgGain close period = 0 then none else some 100)
  else some (100 - 100 / (1 + rsiAvgGain close period / rsiAvgLoss close period))

lemma ewmNum_fold_nonneg (r : ℚ) (hr : 0 ≤ r) :
    ∀ (xs : List ℚ) (acc : ℚ), 0 ≤ acc → (∀ x ∈ xs, 0 ≤ x) →
      0 ≤ xs.foldl (fun a x => a * r + x) acc := by
  intro xs
  induction xs with
  | nil => intro acc hacc _; simpa using hacc
  | cons y ys ih =>
      intro acc hacc hxs
      simp only [List.foldl_cons]
      exact ih (acc * r + y)
        (add_nonneg (mul_nonneg hacc hr) (hxs y (List.mem_cons_self _ _)))
        (fun x hx => hxs x (List.mem_cons_of_mem y hx))

lemma ewmNum_fold_pos (r : ℚ) (hr : 0 < r) :
    ∀ (xs : List ℚ) (acc : ℚ), 0 ≤ acc → (∀ x ∈ xs, 0 ≤ x) →
      (0 < acc ∨ ∃ x ∈ xs, 0 < x) →
      0 < xs.foldl (fun a x => a * r + x) acc := by
  intro xs
  induction xs with
  | nil =>
      intro acc _ _ hpos
      rcases hpos with h | h
      · simpa using h
      · rcases h with ⟨x, hx, _⟩
        exact absurd hx (List.not_mem_nil x)
  | cons y ys ih =>
      intro acc hacc hxs hpos
      simp only [List.foldl_cons]
      have hy : 0 ≤ y := hxs y (List.mem_cons_self _ _)
      have hacc' : 0 ≤ acc * r + y := add_nonneg (mul_nonneg hacc hr.le) hy
      have htail : ∀ x ∈ ys, 0 ≤ x := fun x hx => hxs x (List.mem_cons_of_mem y hx)
      rcases hpos with h | ⟨x, hx, hxpos⟩
      · exact ih (acc * r + y) hacc' htail
          (Or.inl (add_pos_of_pos_of_nonneg (mul_pos h hr) hy))
      · rcases List.mem_cons.mp hx with rfl | hmem
        · exact ih (acc * r + x) hacc' htail
            (Or.inl (add_pos_of_nonneg_of_pos (mul_nonneg hacc hr.le) hxpos))
        · exact ih (acc * r + y) hacc' htail (Or.inr ⟨x, hmem, hxpos⟩)

lemma ewmNum_fold_zero (r : ℚ) :
    ∀ (xs : List ℚ), (∀ x ∈ xs, x = 0) →
      xs.foldl (fun a x => a * r + x) 0 = 0 := by
  intro xs
  have general : ∀ (ys : List ℚ) (acc : ℚ), acc = 0 → (∀ x ∈ ys, x = 0) →
      ys.foldl (fun a x => a * r + x) acc = 0 := by
    intro ys
    induction ys with
    | nil => intro acc hacc _; simpa using hacc
    | cons y ys ih =>
        intro acc hacc hys
        simp only [List.foldl_cons]
        refine ih (acc * r + y) ?_ (fun x hx => hys x (List.mem_cons_of_mem y hx))
        rw [hacc, hys y (List.mem_cons_self _ _)]
        ring
  exact fun h => general xs 0 rfl h

lemma ewmDen_fold_pos (r : ℚ) (hr : 0 ≤ r) :
    ∀ (xs : List ℚ) (acc : ℚ), 0 ≤ acc → xs ≠ [] →
      0 < xs.foldl (fun a _ => a * r + 1) acc := by
  intro xs
  induction xs with
  | nil => intro _ _ hne; exact absurd rfl hne
  | cons y ys ih =>
      intro acc hacc _
      simp only [List.foldl_cons]
      have hacc' : 0 < acc * r + 1 :=
        add_pos_of_nonneg_of_pos (mul_nonneg hacc hr) one_pos
      cases ys with
      | nil => simpa using hacc'
      | cons z zs => exact ih (acc * r + 1) hacc'.le (by simp)

lemma ewmNum_nonneg (r : ℚ) (hr : 0 ≤ r) (xs : List ℚ)
    (h : ∀ x ∈ xs, 0 ≤ x) : 0 ≤ ewmNum r xs :=
  ewmNum_fold_nonneg r hr xs 0 le_rfl h

lemma ewmDen_pos (r : ℚ) (hr : 0 ≤ r) (xs : List ℚ) (h : xs ≠ []) :
    0 < ewmDen r xs :=
  ewmDen_fold_pos r hr xs 0 le_rfl h

lemma ewmMeanLast_nonneg (r : ℚ) (hr : 0 ≤ r) (xs : List ℚ)
    (h : ∀ x ∈ xs, 0 ≤ x) (hne : xs ≠ []) : 0 ≤ ewmMeanLast r xs :=
  div_nonneg (ewmNum_nonneg r hr xs h) (ewmDen_pos r hr xs hne).le

lemma ewmMeanLast_pos (r : ℚ) (hr : 0 < r) (xs : List ℚ)
    (h : ∀ x ∈ xs, 0 ≤ x) (hpos : ∃ x ∈ xs, 0 < x) (hne : xs ≠ []) :
    0 < ewmMeanLast r xs :=
  div_pos (ewmNum_fold_pos r hr xs 0 le_rfl h (Or.inr hpos))
    (ewmDen_pos r hr.le xs hne)

lemma ewmMeanLast_zero (r : ℚ) (xs : List ℚ) (h : ∀ x ∈ xs, x = 0) :
    ewmMeanLast r xs = 0 := by
  unfold ewmMeanLast ewmNum
  rw [ewmNum_fold_zero r xs h, zero_div]

lemma diffs_length (close : List ℚ) : (diffs close).length = close.length - 1 := by
  simp only [diffs, List.length_map, List.length_zip, List.length_tail]
  exact min_eq_right (Nat.sub_le _ _)

/-- Claim C4, counterexample: a constant series of 15 points has zero
smoothed average loss (it is monotonically non-decreasing) yet
`calculate_rsi` with period 14 returns NaN, not a value in [0,100]. -/
theorem C4_counterexample : calculate_rsi (List.replicate 15 (1:ℚ)) 14 = none := by
  have hzero : ∀ d ∈ diffs (List.replicate 15 (1:ℚ)), d = 0 := by
    intro d hd
    simp only [diffs, List.mem_map] at hd
    obtain ⟨q, hq, rfl⟩ := hd
    have h1 : q.1 ∈ List.replicate 15 (1:ℚ) := (List.of_mem_zip hq).1
    have h2 : q.2 ∈ (List.replicate 15 (1:ℚ)).tail := (List.of_mem_zip hq).2
    rw [List.tail_replicate] at h2
    rw [List.eq_of_mem_replicate h1, List.eq_of_mem_replicate h2]
    ring
  have hloss : rsiAvgLoss (List.replicate 15 (1:ℚ)) 14 = 0 := by
    unfold rsiAvgLoss
    apply ewmMeanLast_zero
    intro x hx
    obtain ⟨d, hd, rfl⟩ := List.mem_map.mp hx
    rw [hzero d hd]
    simp
  have hgain : rsiAvgGain (List.replicate 15 (1:ℚ)) 14 = 0 := by
    unfold rsiAvgGain
    apply ewmMeanLast_zero
    intro x hx
    obtain ⟨d, hd, rfl⟩ := List.mem_map.mp hx
    rw [hzero d hd]
    simp
  rw [calculate_rsi, if_neg (by simp), hloss, if_pos rfl, hgain, if_pos rfl]

/-- Claim C4 (amended): for a series of at least `period+1` closes
(`period ≥ 2`): a constant series (all successive differences zero) yields
NaN; any non-constant series yields a value in [0,100]; and a monotonically
non-decreasing, non-constant series yields exactly 100. -/
theorem C4_rsi_range (close : List ℚ) (period : ℕ) (hper : 2 ≤ period)
    (hlen : period + 1 ≤ close.length) :
    ((∀ d ∈ diffs close, d = 0) → calculate_rsi close period = none) ∧
    ((∃ d ∈ diffs close, d ≠ 0) →
      ∃ x, calculate_rsi close period = some x ∧ 0 ≤ x ∧ x ≤ 100) ∧
    ((∀ d ∈ diffs close, 0 ≤ d) → (∃ d ∈ diffs close, 0 < d) →
      calculate_rsi close period = some 100) := by
  have hlen' : ¬ close.length < period + 1 := not_lt.mpr hlen
  have hp1 : (1:ℚ) < (period : ℚ) := by
    have : (2:ℚ) ≤ (period : ℚ) := by exact_mod_cast hper
    linarith
  have hr0 : 0 < 1 - 1 / (period : ℚ) := by
    have h1 : 1 / (period : ℚ) < 1 := by
      rw [div_lt_one (by linarith)]
      exact hp1
    linarith
  have hdiffs_len : 0 < (diffs close).length := by
    rw [diffs_length]
    omega
  have hdiffs_ne : diffs close ≠ [] := List.ne_nil_of_length_pos hdiffs_len
  have hgain_ne : (diffs close).map (fun d => max d 0) ≠ [] := by
    apply List.ne_nil_of_length_pos
    simpa using hdiffs_len
  have hloss_ne : (diffs close).map (fun d => max (-d) 0) ≠ [] := by
    apply List.ne_nil_of_length_pos
    simpa using hdiffs_len
  have hgain_nonneg : ∀ x ∈ (diffs close).map (fun d => max d 0), 0 ≤ x := by
    intro x hx
    obtain ⟨d, _, rfl⟩ := List.mem_map.mp hx
    exact le_max_right d 0
  have hloss_nonneg : ∀ x ∈ (diffs close).map (fun d => max (-d) 0), 0 ≤ x := by
    intro x hx
    obtain ⟨d, _, rfl⟩ := List.mem_map.mp hx
    exact le_max_right (-d) 0
  have hAG : 0 ≤ rsiAvgGain close period :=
    ewmMeanLast_nonneg _ hr0.le _ hgain_nonneg hgain_ne
  have hAL : 0 ≤ rsiAvgLoss close period :=
    ewmMeanLast_nonneg _ hr0.le _ hloss_nonneg hloss_ne
  refine ⟨?_, ?_, ?_⟩
  · intro hall
    have hloss : rsiAvgLoss close period = 0 := by
      unfold rsiAvgLoss
      apply ewmMeanLast_zero
      intro x hx
      obtain ⟨d, hd, rfl⟩ := List.mem_map.mp hx
      rw [hall d hd]
      simp
    have hgain : rsiAvgGain close period = 0 := by
      unfold rsiAvgGain
      apply ewmMeanLast_zero
      intro x hx
      obtain ⟨d, hd, rfl⟩ := List.mem_map.mp hx
      rw [hall d hd]
      simp
    rw [calculate_rsi, if_neg hlen', hloss, if_pos rfl, hgain, if_pos rfl]
  · rintro ⟨d, hd, hdne⟩
    by_cases hloss : rsiAvgLoss close period = 0
    · have hdpos : 0 < d := by
        rcases lt_or_gt_of_ne hdne with hneg | hpos
        · exfalso
          have : 0 < rsiAvgLoss close period := by
            unfold rsiAvgLoss
            apply ewmMeanLast_pos _ hr0 _ hloss_nonneg
            · exact ⟨max (-d) 0, List.mem_map_of_mem _ hd,
                lt_of_lt_of_le (by linarith) (le_max_left (-d) 0)⟩
            · exact hloss_ne
          linarith [this, hloss.le]
        · exact hpos
      have hgain : rsiAvgGain close period ≠ 0 := by
        have : 0 < rsiAvgGain close period := by
          unfold rsiAvgGain
          apply ewmMeanLast_pos _ hr0 _ hgain_nonneg
          · exact ⟨max d 0, List.mem_map_of_mem _ hd,
              lt_of_lt_of_le hdpos (le_max_left d 0)⟩
          · exact hgain_ne
        exact ne_of_gt this
      refine ⟨100, ?_, by norm_num, by norm_num⟩
      rw [calculate_rsi, if_neg hlen', hloss, if_pos rfl, if_neg hgain]
    · have hALpos : 0 < rsiAvgLoss close period := lt_of_le_of_ne hAL (Ne.symm hloss)
      have hrs : 0 ≤ rsiAvgGain close period / rsiAvgLoss close period :=
        div_nonneg hAG hALpos.le
      refine ⟨100 - 100 / (1 + rsiAvgGain close period / rsiAvgLoss close period),
        ?_, ?_, ?_⟩
      · rw [calculate_rsi, if_neg hlen', if_neg hloss]
      · have h2 : 100 / (1 + rsiAvgGain close period / rsiAvgLoss close period)
            ≤ 100 := div_le_self (by norm_num) (by linarith)
        linarith
      · have h3 : 0 < 100 / (1 + rsiAvgGain close period / rsiAvgLoss close period) := by
          positivity
        linarith
  · intro hnonneg hpos
    have hloss : rsiAvgLoss close period = 0 := by
      unfold rsiAvgLoss
      apply ewmMeanLast_zero
      intro x hx
      obtain ⟨d, hd, rfl⟩ := List.mem_map.mp hx
      have := hnonneg d hd
      simp only [max_eq_right_iff]
      linarith
    have hgain : rsiAvgGain close period ≠ 0 := by
      obtain ⟨d, hd, hdpos⟩ := hpos
      have : 0 < rsiAvgGain close period := by
        unfold rsiAvgGain
        apply ewmMeanLast_pos _ hr0 _ hgain_nonneg
        · exact ⟨max d 0, List.mem_map_of_mem _ hd,
            lt_of_lt_of_le hdpos (le_max_left d 0)⟩
        · exact hgain_ne
      exact ne_of_gt this
    rw [calculate_rsi, if_neg hlen', hloss, if_pos rfl, if_neg hgain]

/-- Claim C4, witness instance: a strictly increasing 16-point series at
period 14 gives RSI exactly 100. -/
theorem C4_rsi_range_witness :
    calculate_rsi [0, 1, 2, 3, 4, 5, 6, 7, 8, 9, 10, 11, 12, 13, 14, 15] 14
      = some 100 := by
  have h := (C4_rsi_range
    [0, 1, 2, 3, 4, 5, 6, 7, 8, 9, 10, 11, 12, 13, 14, 15] 14
    (by norm_num) (by simp)).2.2
  apply h
  · intro d hd
    simp only [diffs] at hd
    norm_num at hd
    rw [hd]
    norm_num
  · refine ⟨1, ?_, by norm_num⟩
    simp only [diffs]
    norm_num

/-- The slope of `scipy.stats.linregress(x, y)` with `x = 0, 1, ..., n-1`:
covariance of x and y over variance of x (scipy divides both sums by n,
which cancels; the centered-sum form below is the same exact rational). -/
def linregressSlope (ys : List ℚ) : ℚ :=
  let n : ℚ := (ys.length : ℚ)
  let xs : List ℚ := (List.range ys.length).map (fun i => (i : ℚ))
  let mx := xs.sum / n
  let my := ys.sum / n
  let sxy := ((xs.zip ys).map (fun q => (q.1 - mx) * (q.2 - my))).sum
  let sxx := (xs.map (fun x => (x - mx) ^ 2)).sum
  sxy / sxx

/-- Embedding of `calculate_trend` (panel.py lines 225-231): NaN slope and the label
"Indeterminada" when the series is empty or shorter than `period`, otherwise
the least-squares slope over the last `period` closes and the label
"Alcista" for a positive slope, else "Bajista". -/
def calculate_trend (close : List ℚ) (period : ℕ) : Option ℚ × String :=
  if close.length = 0 ∨ close.length < period then (none, "Indeterminada")
  else
    let slope := linregressSlope (close.drop (close.length - period))
    (some slope, if 0 < slope then "Alcista" else "Bajista")

/-- Claim C7, counterexample: a 2-point series with the default 30-day window
is reported "Indeterminada" by the source, although the claim says any series
with at least 2 closes gets a fitted slope. -/
theorem C7_counterexample : calculate_trend [1, 2] 30 = (none, "Indeterminada") := by
  rw [calculate_trend, if_pos]
  right
  norm_num

/-- Claim C7 (amended): the trend is Indeterminate exactly when the series is
empty or shorter than the window; otherwise the slope is the least-squares
slope of the last `period` closes and the label is "Alcista" (bullish) when
the slope is positive and "Bajista" (bearish) otherwise. -/
theorem C7_trend_characterization (close : List ℚ) (period : ℕ) :
    ((calculate_trend close period).1 = none ↔
      close.length = 0 ∨ close.length < period) ∧
    (∀ s, (calculate_trend close period).1 = some s →
      s = linregressSlope (close.drop (close.length - period)) ∧
      (calculate_trend close period).2 =
        if 0 < s then "Alcista" else "Bajista") := by
  by_cases h : close.length = 0 ∨ close.length < period
  · refine ⟨iff_of_true (by rw [calculate_trend, if_pos h]) h, ?_⟩
    intro s hs
    rw [calculate_trend, if_pos h] at hs
    simp at hs
  · refine ⟨iff_of_false (by rw [calculate_trend, if_neg h]; simp) h, ?_⟩
    intro s hs
    rw [calculate_trend, if_neg h] at hs
    simp only [Option.some.injEq] at hs
    refine ⟨hs.symm, ?_⟩
    rw [calculate_trend, if_neg h, hs]

/-- Claim C7, witness instance: a 3-point increasing series with window 2 is
fitted over its last 2 closes with slope 1, labelled "Alcista". -/
theorem C7_trend_characterization_witness :
    (1 : ℚ) = linregressSlope ([1, 2, 3].drop (List.length [1, 2, 3] - 2)) ∧
    (calculate_trend [1, 2, 3] 2).2 = if (0:ℚ) < 1 then "Alcista" else "Bajista" := by
  apply (C7_trend_characterization [1, 2, 3] 2).2 1
  rw [calculate_trend, if_neg (by norm_num)]
  simp only [Option.some.injEq]
  norm_num [linregressSlope, List.range_succ]

/-- Last value of `series.ewm(span=..., adjust=False).mean()` over a list
with no missing entries: the recurrence `y 0 = x 0`,
`y t = (1-a) * y (t-1) + a * x t` with `a = 2/(span+1)`; 0 for the empty
list (that case is guarded away by the callers). -/
def emaLastTot (a : ℚ) : List ℚ → ℚ
  | [] => 0
  | x :: xs => xs.foldl (fun prev y => (1 - a) * prev + a * y) x

/-- pandas `xs.tail(n)`: the last `n` entries. -/
def lastN (n : ℕ) (xs : List ℚ) : List ℚ := xs.drop (xs.length - n)

/-- Sample variance with `ddof = 1` (the pandas default for `.std()`). -/
def sampleVar (xs : List ℚ) : ℚ :=
  ((xs.map (fun x => (x - xs.sum / (xs.length : ℚ)) ^ 2)).sum) / ((xs.length : ℚ) - 1)

/-- pandas `.std()`: the (real) square root of the sample variance. -/
noncomputable def sampleStd (xs : List ℚ) : ℝ :=
  Real.sqrt ((sampleVar xs : ℚ) : ℝ)

/-- Embedding of `project_future_price` (panel.py lines 189-210) on the dropna close
values: NaN for fewer than 2 points, otherwise the triple
`(ema, ema - std, ema + std)` where the EMA (span = `tail_len`,
adjust=False) runs over the whole series while the std is taken over the
last `tail_len` closes only. -/
noncomputable def project_future_price (close : List ℚ) (span : ℕ) :
    Option (ℝ × ℝ × ℝ) :=
  if close.length < 2 then none
  else
    let tail_len := min span close.length
    let e : ℚ := emaLastTot (2 / ((tail_len : ℚ) + 1)) close
    let s : ℝ := sampleStd (lastN tail_len close)
    some ((e : ℝ), (e : ℝ) - s, (e : ℝ) + s)

/-- One instrument's 4-month projection from `update_dashboard`
(panel.py lines 495-500 for copper, repeated identically for the other
three instruments): combine `project_future_price`, the `calculate_trend`
slope over the same window, and the drift term built from the std of the
merged dataframe's column (`dfCol`, the full 9-month aligned series, a
different series from the tail used for the spread).  When the EMA is NaN
the source falls back to the current-price triple; a NaN slope poisons all
three outputs. -/
noncomputable def futureBounds (close dfCol : List ℚ) (span horizon : ℕ)
    (current : Option ℚ) : Option (ℝ × ℝ × ℝ) :=
  match project_future_price close span with
  | none => current.map (fun c => ((c : ℝ), (c : ℝ), (c : ℝ)))
  | some (e, lo, hi) =>
    match (calculate_trend close span).1 with
    | none => none
    | some m =>
      let drift : ℝ := sampleStd dfCol * Real.sqrt (horizon : ℝ) / Real.sqrt 252
      some (e + (m : ℝ) * (horizon : ℝ),
            lo + (m : ℝ) * (horizon : ℝ) - drift,
            hi + (m : ℝ) * (horizon : ℝ) + drift)

/-- Modelled from the spec and the claim: `expected_now` computed as the last
EMA value over ONLY the last `tail` points (spec section 4.3 step 2),
for comparison against the source's EMA over the entire series. -/
def specExpectedNow (close : List ℚ) (span : ℕ) : Option ℚ :=
  if close.length < 2 then none
  else some (emaLastTot (2 / (((min span close.length : ℕ) : ℚ) + 1))
    (lastN (min span close.length) close))

/-- Claim C6, counterexample: for the series `[0, 0, 100, 100]` with span 2
the source's expected value (EMA over the whole series) is `800/9`, while an
EMA over only the last `tail = 2` points — what the claim describes — gives
`100`; the two disagree, refuting the claim's description of
`expected_now`. -/
theorem C6_counterexample :
    project_future_price [0, 0, 100, 100] 2 =
      some ((800/9 : ℝ), (800/9 : ℝ), (800/9 : ℝ)) ∧
    specExpectedNow [0, 0, 100, 100] 2 = some 100 ∧
    ((800/9 : ℝ) ≠ (100 : ℝ)) := by
  have hvar : sampleVar (lastN 2 [0, 0, 100, (100:ℚ)]) = 0 := by
    norm_num [lastN, sampleVar]
  have hstd : sampleStd (lastN 2 [0, 0, 100, (100:ℚ)]) = 0 := by
    rw [sampleStd, hvar]
    norm_num
  have hema : emaLastTot ((2 : ℚ) / 3) [0, 0, 100, 100] = 800/9 := by
    norm_num [emaLastTot]
  refine ⟨?_, ?_, by norm_num⟩
  · rw [project_future_price, if_neg (by norm_num)]
    simp only [List.length_cons, List.length_nil]
    norm_num [hstd]
    rw [hema]
    push_cast
    norm_num
  · rw [specExpectedNow, if_neg (by norm_num)]
    simp only [List.length_cons, List.length_nil]
    norm_num [emaLastTot, lastN]

/-- Claim C6 (amended): for a series with at least 2 closes and at least
`span` closes (span positive), the projection returns exactly
`expected = E + m*h`, `lower = E - S + m*h - D`, `upper = E + S + m*h + D`,
where `E` is the last EMA value with span `tail = span` over the ENTIRE
series, `S` the sample std of the last `span` closes, `m` the least-squares
slope of the last `span` closes, `h` the horizon in days and
`D = std(dfCol) * sqrt(h) / sqrt(252)` the drift computed from the merged
dataframe's full column, not from `S`. -/
theorem C6_projection_formula (close dfCol : List ℚ) (span horizon : ℕ)
    (cur : Option ℚ) (hspan : 0 < span) (hlen : span ≤ close.length)
    (h2 : 2 ≤ close.length) :
    futureBounds close dfCol span horizon cur =
      some (((emaLastTot (2 / ((span : ℚ) + 1)) close : ℚ) : ℝ)
              + ((linregressSlope (lastN span close) : ℚ) : ℝ) * (horizon : ℝ),
            ((emaLastTot (2 / ((span : ℚ) + 1)) close : ℚ) : ℝ)
              - sampleStd (lastN span close)
              + ((linregressSlope (lastN span close) : ℚ) : ℝ) * (horizon : ℝ)
              - sampleStd dfCol * Real.sqrt (horizon : ℝ) / Real.sqrt 252,
            ((emaLastTot (2 / ((span : ℚ) + 1)) close : ℚ) : ℝ)
              + sampleStd (lastN span close)
              + ((linregressSlope (lastN span close) : ℚ) : ℝ) * (horizon : ℝ)
              + sampleStd dfCol * Real.sqrt (horizon : ℝ) / Real.sqrt 252) := by
  have hmin : min span close.length = span := min_eq_left hlen
  have hproj : project_future_price close span =
      some (((emaLastTot (2 / ((span : ℚ) + 1)) close : ℚ) : ℝ),
            ((emaLastTot (2 / ((span : ℚ) + 1)) close : ℚ) : ℝ)
              - sampleStd (lastN span close),
            ((emaLastTot (2 / ((span : ℚ) + 1)) close : ℚ) : ℝ)
              + sampleStd (lastN span close)) := by
    rw [project_future_price, if_neg (not_lt.mpr h2)]
    rw [hmin]
  have htrend : (calculate_trend close span).1 =
      some (linregressSlope (lastN span close)) := by
    rw [calculate_trend, if_neg ?_]
    · rfl
    · push_neg
      omega
  rw [futureBounds, hproj, htrend]

/-- Claim C6, witness instance: a flat 2-point series with a flat dataframe
column projects to the constant triple (1, 1, 1): EMA 1, zero spread, zero
slope and zero drift. -/
theorem C6_projection_formula_witness :
    futureBounds [1, 1] [2, 2] 2 80 none = some (1, 1, 1) := by
  rw [C6_projection_formula [1, 1] [2, 2] 2 80 none (by norm_num) (by norm_num)
    (by norm_num)]
  have hE : emaLastTot (2 / ((2 : ℚ) + 1)) [1, 1] = 1 := by
    norm_num [emaLastTot]
  have hm : linregressSlope (lastN 2 [1, (1:ℚ)]) = 0 := by
    norm_num [lastN, linregressSlope, List.range_succ]
  have hS : sampleStd (lastN 2 [1, (1:ℚ)]) = 0 := by
    have : sampleVar (lastN 2 [1, (1:ℚ)]) = 0 := by
      norm_num [lastN, sampleVar]
    rw [sampleStd, this]
    norm_num
  have hD : sampleStd [2, (2:ℚ)] = 0 := by
    have : sampleVar [2, (2:ℚ)] = 0 := by
      norm_num [sampleVar]
    rw [sampleStd, this]
    norm_num
  rw [hm, hS, hD]
  push_cast [hE]
  norm_num
